import Mathlib

/-!
Verification of the `lockcell` crate (`src/shared/lockcell/src/lib.rs`), a
ticket spinlock guarding a value (`LockCell`) with interrupt/exception
awareness.

Two embeddings are developed, both translated from the source:

1. A sequential denotation of a single `lock_int` / `Drop::drop` call on a
   cell state with no interference from other cores.  The atomics of the
   source (`load`, `fetch_add`, `compare_and_swap`, `store`) collapse to
   plain reads/writes of the state.  Since nothing else runs, the blocking
   spin loop either exits on its first test of `release`, panics on the
   deadlock check, or spins forever; the denotation records which.
   All `u32` arithmetic is `Nat` arithmetic modulo `2^32`.

2. A concurrent small-step transition system over any number of cores, one
   atomic instruction of the source per step (the `owner` store is folded
   into the step that makes it, as `owner` is not read by any grant test).
   Core ids are `u32` values distinct from `!0` (the source requires
   `core_id()` to be unique and never `!0`), hence `< 2^32 - 1`.
-/

/-- The modulus of `u32` arithmetic: all counters in the source are `AtomicU32`. -/
def U32_MOD : Nat := 4294967296

/-- The sentinel stored by `Drop::drop` into `owner`: `!0` as a `u32`. -/
def NONE_OWNER : Nat := U32_MOD - 1

/-- The `u32` operation `v.wrapping_add(1)` used by `fetch_add(1, ...)`,
`compare_and_swap(r, r.wrapping_add(1), ...)` and the release increment. -/
def wrappingAdd1 (v : Nat) : Nat := (v + 1) % U32_MOD

/-- The environment supplied by the `InterruptState` trait implementation at
the moment of one call: what `in_interrupt()`, `in_exception()` and
`core_id()` return. -/
structure IState where
  inInterrupt : Bool
  inException : Bool
  coreId : Nat
deriving DecidableEq, Repr

/-- The observable state of a `LockCell<T, I>`: the three `AtomicU32` fields,
the `disables_interrupts` flag and the guarded value `val`. -/
structure CellState (T : Type) where
  ticket : Nat
  release : Nat
  owner : Nat
  disables_interrupts : Bool
  val : T
deriving DecidableEq, Repr

/-- `LockCell::new`: all counters zero, `owner` zero, preemptable. -/
def LockCell.new {T : Type} (v : T) : CellState T :=
  { ticket := 0, release := 0, owner := 0, disables_interrupts := false, val := v }

/-- `LockCell::new_no_preempt`: all counters zero, `owner` zero, interrupt-disabling. -/
def LockCell.new_no_preempt {T : Type} (v : T) : CellState T :=
  { ticket := 0, release := 0, owner := 0, disables_interrupts := true, val := v }

/-- Calls to `I::enter_lock()` / `I::exit_lock()` made during one `lock_int`
call, in order. -/
inductive LockEvent
  | enterLock
  | exitLock
deriving DecidableEq, Repr

/-- Outcome of one sequential `lock_int` call.  The aborting outcomes carry
the cell state at the abort point.  `ret g s` is an ordinary return: `g` is
`some ()` when a `LockCellGuard` is returned (the guard itself is just a
reference to the cell) and `none` for Rust's `None`; `s` is the cell state at
return. -/
inductive LockOutcome (T : Type)
  | assertNoPreemptFail (s : CellState T)
  | assertExceptionFail (s : CellState T)
  | deadlockPanic (s : CellState T)
  | spinForever (s : CellState T)
  | ret (g : Option Unit) (s : CellState T)
deriving DecidableEq, Repr

/-- Sequential denotation of `LockCell::lock_int(&self, try_lock)` from the
source, line by line:
first `assert!(disables_interrupts || !in_interrupt())`, then
`assert!(try_lock || !in_exception())`, then `enter_lock()` when
`disables_interrupts`; the try path loads `release`, attempts the single
`compare_and_swap` of `ticket` from it to its wrapping successor and on
failure undoes `enter_lock()` with `exit_lock()` and returns `None`; the
blocking path does `ticket.fetch_add(1)` and then runs the spin loop, which
with no interference exits at once when `release` equals the fetched ticket,
panics with "Deadlock detected" when `owner` equals `core_id`, and otherwise
spins forever.  On success `owner` is stored and `Some(guard)` returned. -/
def lock_int {T : Type} (I : IState) (s : CellState T) (try_lock : Bool) :
    LockOutcome T × List LockEvent :=
  if !(s.disables_interrupts || !I.inInterrupt) then
    (LockOutcome.assertNoPreemptFail s, [])
  else if !(try_lock || !I.inException) then
    (LockOutcome.assertExceptionFail s, [])
  else
    let core_id := I.coreId
    let ev := if s.disables_interrupts then [LockEvent.enterLock] else []
    if try_lock then
      let current_release := s.release
      if s.ticket ≠ current_release then
        (LockOutcome.ret none s,
         ev ++ if s.disables_interrupts then [LockEvent.exitLock] else [])
      else
        let s1 := { s with ticket := wrappingAdd1 current_release }
        (LockOutcome.ret (some ()) { s1 with owner := core_id }, ev)
    else
      let my_ticket := s.ticket
      let s1 := { s with ticket := wrappingAdd1 s.ticket }
      if s1.release = my_ticket then
        (LockOutcome.ret (some ()) { s1 with owner := core_id }, ev)
      else if s1.owner = core_id then
        (LockOutcome.deadlockPanic s1, ev)
      else
        (LockOutcome.spinForever s1, ev)

/-- Outcome of `LockCell::lock`, which is `lock_int(false).unwrap()`:
`unwrapPanicked` is the outcome in which `lock_int` returned `None` and the
`unwrap` panicked. -/
inductive BlockingOutcome (T : Type)
  | assertNoPreemptFail (s : CellState T)
  | assertExceptionFail (s : CellState T)
  | deadlockPanic (s : CellState T)
  | spinForever (s : CellState T)
  | acquired (s : CellState T)
  | unwrapPanicked (s : CellState T)
deriving DecidableEq, Repr

/-- Sequential denotation of `LockCell::lock`: `self.lock_int(false).unwrap()`. -/
def LockCell.lock {T : Type} (I : IState) (s : CellState T) : BlockingOutcome T :=
  match (lock_int I s false).1 with
  | LockOutcome.assertNoPreemptFail s1 => BlockingOutcome.assertNoPreemptFail s1
  | LockOutcome.assertExceptionFail s1 => BlockingOutcome.assertExceptionFail s1
  | LockOutcome.deadlockPanic s1 => BlockingOutcome.deadlockPanic s1
  | LockOutcome.spinForever s1 => BlockingOutcome.spinForever s1
  | LockOutcome.ret (some _) s1 => BlockingOutcome.acquired s1
  | LockOutcome.ret none s1 => BlockingOutcome.unwrapPanicked s1

/-- Sequential denotation of `LockCell::try_lock`: `self.lock_int(true)`. -/
def LockCell.try_lock {T : Type} (I : IState) (s : CellState T) :
    LockOutcome T × List LockEvent :=
  lock_int I s true

/-- True exactly on the `ret none` outcome (the `None` return of `lock_int`). -/
def isRetNone {T : Type} (o : LockOutcome T) : Bool :=
  match o with
  | LockOutcome.ret none _ => true
  | _ => false

/-- True exactly on the outcome in which `lock()`'s `unwrap` panicked. -/
def isUnwrapPanicked {T : Type} (o : BlockingOutcome T) : Bool :=
  match o with
  | BlockingOutcome.unwrapPanicked _ => true
  | _ => false

/-- The primitive statements executed by `Drop for LockCellGuard`, used both
as instructions and as the recorded trace of one drop. -/
inductive DropEvent
  | setOwner (v : Nat)
  | incRelease
  | exitLockCall
deriving DecidableEq, Repr

/-- Effect of one drop statement on the cell state: `owner.store(v)`,
`release.fetch_add(1)` (wrapping), and `I::exit_lock()` (which does not touch
the cell). -/
def dropEffect {T : Type} (s : CellState T) (e : DropEvent) : CellState T :=
  match e with
  | DropEvent.setOwner v => { s with owner := v }
  | DropEvent.incRelease => { s with release := wrappingAdd1 s.release }
  | DropEvent.exitLockCall => s

/-- The statement sequence of `Drop::drop`, in source order:
`owner.store(!0)`, then `release.fetch_add(1)`, then, only when
`disables_interrupts`, `exit_lock()`. -/
def dropProgram (di : Bool) : List DropEvent :=
  [DropEvent.setOwner NONE_OWNER, DropEvent.incRelease] ++
    (if di then [DropEvent.exitLockCall] else [])

/-- Sequential denotation of `Drop for LockCellGuard::drop`: run the drop
statements in order and record them. -/
def LockCellGuard.drop {T : Type} (s : CellState T) : CellState T × List DropEvent :=
  (List.foldl dropEffect s (dropProgram s.disables_interrupts),
   dropProgram s.disables_interrupts)

/-!
Concurrent small-step model.  Each core (identified by its `core_id`, a `u32`
other than `!0`, hence a natural `< U32_MOD - 1`) executes the instructions
of `lock_int`/`drop` on one shared cell; one atomic instruction per step.

The physical `u32` counters are tracked through unbounded history counters:
`tickets` counts every increment ever applied to the `ticket` field and
`releases` every increment of `release`, so the stored `u32` values are
`tickets % U32_MOD` and `releases % U32_MOD`.  Every test made by a step
compares those physical values, exactly as the source does; the unbounded
counters never influence enabledness.  Likewise a core's program counter
records its assigned ticket (or the `release` value a try-acquire loaded) as
the unbounded counter whose physical value the core actually saved.
-/

/-- Program counter of one core with respect to one cell.  `idle`: not inside
`lock_int` and holding no guard.  `waiting k`: did `ticket.fetch_add(1)`
obtaining ticket `k`, now in the spin loop.  `holding k`: `lock_int` returned
a guard (ticket `k`) that has not been dropped yet.  `panicked k`: hit the
"Deadlock detected" panic while waiting on ticket `k` (its ticket remains
outstanding forever).  `tryRead r0`: inside `lock_int(true)`, loaded
`release` when the history release counter was `r0`, `compare_and_swap` not
yet executed. -/
inductive CorePC
  | idle
  | waiting (k : Nat)
  | holding (k : Nat)
  | panicked (k : Nat)
  | tryRead (r0 : Nat)
deriving DecidableEq, Repr

/-- Global state: history counters for the two `AtomicU32` counters, the
`owner` field, and every core's program counter. -/
structure SysState where
  tickets : Nat
  releases : Nat
  owner : Nat
  pc : Nat → CorePC

/-- Initial state of a freshly constructed cell (`new` / `new_no_preempt`):
counters zero, `owner` zero (as the source writes), every core idle. -/
def initSys : SysState :=
  { tickets := 0, releases := 0, owner := 0, pc := fun _ => CorePC.idle }

/-- Core `c` has outstanding ticket `k`: it fetched ticket `k` and the lock
protocol has not yet released it (`waiting`, `holding`, or `panicked`). -/
def owns (s : SysState) (c k : Nat) : Prop :=
  s.pc c = CorePC.waiting k ∨ s.pc c = CorePC.holding k ∨ s.pc c = CorePC.panicked k

/-- One atomic instruction of the source, executed by some core `c`.
`takeTicket`: the `ticket.fetch_add(1)` of the blocking path.
`enterCS`: the spin-loop load of `release` observing it equal to the core's
ticket, folded with the following `owner.store(core_id)` and the return of
the guard.  `deadlockCheck`: the spin-loop load of `owner` observing the
core's own id, i.e. the "Deadlock detected" panic.  `releaseLock`:
`Drop::drop` (the `owner.store(!0)` folded with the `release.fetch_add(1)`).
`tryReadRelease`: the `release.load` of the try path.  `tryCasFail` /
`tryCasWin`: its `compare_and_swap` of `ticket` from the loaded value to its
wrapping successor, failing resp. succeeding (on success folded with the
`owner.store(core_id)` and the guard return).  Each constructor carries the
successor state explicitly together with the equation defining it. -/
inductive Step : SysState → SysState → Prop
  | takeTicket (s s' : SysState) (c : Nat) (hc : c < U32_MOD - 1)
      (hpc : s.pc c = CorePC.idle)
      (heq : s' = { s with tickets := s.tickets + 1,
                           pc := Function.update s.pc c (CorePC.waiting s.tickets) }) :
      Step s s'
  | enterCS (s s' : SysState) (c k : Nat)
      (hpc : s.pc c = CorePC.waiting k)
      (hrel : s.releases % U32_MOD = k % U32_MOD)
      (heq : s' = { s with owner := c,
                           pc := Function.update s.pc c (CorePC.holding k) }) :
      Step s s'
  | deadlockCheck (s s' : SysState) (c k : Nat)
      (hpc : s.pc c = CorePC.waiting k)
      (hrel : s.releases % U32_MOD ≠ k % U32_MOD)
      (hown : s.owner = c)
      (heq : s' = { s with pc := Function.update s.pc c (CorePC.panicked k) }) :
      Step s s'
  | releaseLock (s s' : SysState) (c k : Nat)
      (hpc : s.pc c = CorePC.holding k)
      (heq : s' = { s with owner := NONE_OWNER, releases := s.releases + 1,
                           pc := Function.update s.pc c CorePC.idle }) :
      Step s s'
  | tryReadRelease (s s' : SysState) (c : Nat) (hc : c < U32_MOD - 1)
      (hpc : s.pc c = CorePC.idle)
      (heq : s' = { s with pc := Function.update s.pc c (CorePC.tryRead s.releases) }) :
      Step s s'
  | tryCasFail (s s' : SysState) (c r0 : Nat)
      (hpc : s.pc c = CorePC.tryRead r0)
      (hne : s.tickets % U32_MOD ≠ r0 % U32_MOD)
      (heq : s' = { s with pc := Function.update s.pc c CorePC.idle }) :
      Step s s'
  | tryCasWin (s s' : SysState) (c r0 : Nat)
      (hpc : s.pc c = CorePC.tryRead r0)
      (hmod : s.tickets % U32_MOD = r0 % U32_MOD)
      (heq : s' = { s with tickets := s.tickets + 1, owner := c,
                           pc := Function.update s.pc c (CorePC.holding s.tickets) }) :
      Step s s'

/-- States reachable from the freshly constructed cell. -/
inductive Reachable : SysState → Prop
  | init : Reachable initSys
  | step {s s' : SysState} (h : Reachable s) (hs : Step s s') : Reachable s'

/-- The steps of `Step` restricted by one environment assumption: a
successful `compare_and_swap` of a try-acquire happens before the ticket
counter has advanced a full `2^32` past the `release` value the try-acquire
loaded (no full wraparound of the `u32` ticket counter inside the
read-to-swap window).  All other steps are unrestricted. -/
inductive GoodStep : SysState → SysState → Prop
  | takeTicket (s s' : SysState) (c : Nat) (hc : c < U32_MOD - 1)
      (hpc : s.pc c = CorePC.idle)
      (heq : s' = { s with tickets := s.tickets + 1,
                           pc := Function.update s.pc c (CorePC.waiting s.tickets) }) :
      GoodStep s s'
  | enterCS (s s' : SysState) (c k : Nat)
      (hpc : s.pc c = CorePC.waiting k)
      (hrel : s.releases % U32_MOD = k % U32_MOD)
      (heq : s' = { s with owner := c,
                           pc := Function.update s.pc c (CorePC.holding k) }) :
      GoodStep s s'
  | deadlockCheck (s s' : SysState) (c k : Nat)
      (hpc : s.pc c = CorePC.waiting k)
      (hrel : s.releases % U32_MOD ≠ k % U32_MOD)
      (hown : s.owner = c)
      (heq : s' = { s with pc := Function.update s.pc c (CorePC.panicked k) }) :
      GoodStep s s'
  | releaseLock (s s' : SysState) (c k : Nat)
      (hpc : s.pc c = CorePC.holding k)
      (heq : s' = { s with owner := NONE_OWNER, releases := s.releases + 1,
                           pc := Function.update s.pc c CorePC.idle }) :
      GoodStep s s'
  | tryReadRelease (s s' : SysState) (c : Nat) (hc : c < U32_MOD - 1)
      (hpc : s.pc c = CorePC.idle)
      (heq : s' = { s with pc := Function.update s.pc c (CorePC.tryRead s.releases) }) :
      GoodStep s s'
  | tryCasFail (s s' : SysState) (c r0 : Nat)
      (hpc : s.pc c = CorePC.tryRead r0)
      (hne : s.tickets % U32_MOD ≠ r0 % U32_MOD)
      (heq : s' = { s with pc := Function.update s.pc c CorePC.idle }) :
      GoodStep s s'
  | tryCasWin (s s' : SysState) (c r0 : Nat)
      (hpc : s.pc c = CorePC.tryRead r0)
      (hmod : s.tickets % U32_MOD = r0 % U32_MOD)
      (hgap : s.tickets - r0 < U32_MOD)
      (heq : s' = { s with tickets := s.tickets + 1, owner := c,
                           pc := Function.update s.pc c (CorePC.holding s.tickets) }) :
      GoodStep s s'

/-- States reachable from the fresh cell along `GoodStep`s. -/
inductive GoodReachable : SysState → Prop
  | init : GoodReachable initSys
  | step {s s' : SysState} (h : GoodReachable s) (hs : GoodStep s s') : GoodReachable s'

/-- The inductive invariant of the ticket protocol (over `GoodStep`s):
`releases` never exceeds `tickets`; fewer than `2^32` tickets are
outstanding; every outstanding ticket lies in `[releases, tickets)`; no two
cores share an outstanding ticket; a guard holder's ticket is exactly
`releases`; every value in `[releases, tickets)` is some core's outstanding
ticket; every non-idle core is a valid core id; and a pending try-acquire's
loaded release value is at most the current one. -/
structure ProtocolInv (s : SysState) : Prop where
  rel_le : s.releases ≤ s.tickets
  out_bound : s.tickets - s.releases < U32_MOD
  ticket_range : ∀ c k, owns s c k → s.releases ≤ k ∧ k < s.tickets
  ticket_inj : ∀ c c' k, owns s c k → owns s c' k → c = c'
  holder_rel : ∀ c k, s.pc c = CorePC.holding k → k = s.releases
  ticket_surj : ∀ n, s.releases ≤ n → n < s.tickets → ∃ c, owns s c n
  valid_active : ∀ c, s.pc c ≠ CorePC.idle → c < U32_MOD - 1
  tryread_le : ∀ c r0, s.pc c = CorePC.tryRead r0 → r0 ≤ s.releases

/-- State in the ABA execution: core 2's try-acquire has loaded `release`
(history value 1) and core 1 has completed `k` acquire/release cycles in
total, so both counters stand at `k`. -/
def cycleState (k : Nat) : SysState :=
  { tickets := k, releases := k, owner := NONE_OWNER,
    pc := fun c => if c = 2 then CorePC.tryRead 1 else CorePC.idle }

/-- Final state of the ABA execution: core 1 holds the guard for ticket
`2^32` while core 2's try-acquire, whose `compare_and_swap` found the
`ticket` field back at its loaded value after a full wraparound, also holds a
guard (ticket `2^32 + 1`). -/
def cexFinal : SysState :=
  { tickets := U32_MOD + 2, releases := U32_MOD, owner := 2,
    pc := fun c =>
      if c = 2 then CorePC.holding (U32_MOD + 1)
      else if c = 1 then CorePC.holding U32_MOD
      else CorePC.idle }

/-- First intermediate state of the ABA execution: core 1 fetched ticket 0. -/
def abaA1 : SysState :=
  { tickets := 1, releases := 0, owner := 0,
    pc := fun c => if c = 1 then CorePC.waiting 0 else CorePC.idle }

/-- Core 1 passed the spin wait for ticket 0 and holds the guard. -/
def abaA2 : SysState :=
  { tickets := 1, releases := 0, owner := 1,
    pc := fun c => if c = 1 then CorePC.holding 0 else CorePC.idle }

/-- Core 1 dropped its guard: one full cycle done, lock free. -/
def abaA3 : SysState :=
  { tickets := 1, releases := 1, owner := NONE_OWNER, pc := fun _ => CorePC.idle }

/-- During cycle `k + 1` of the ABA execution: core 1 fetched ticket `k`. -/
def cyc1 (k : Nat) : SysState :=
  { tickets := k + 1, releases := k, owner := NONE_OWNER,
    pc := fun c => if c = 1 then CorePC.waiting k
      else if c = 2 then CorePC.tryRead 1 else CorePC.idle }

/-- During cycle `k + 1` of the ABA execution: core 1 holds the guard for
ticket `k`. -/
def cyc2 (k : Nat) : SysState :=
  { tickets := k + 1, releases := k, owner := 1,
    pc := fun c => if c = 1 then CorePC.holding k
      else if c = 2 then CorePC.tryRead 1 else CorePC.idle }

/-- A small concrete state used to exhibit reachability with a guard held:
core 1 took ticket 0 on the fresh cell and entered the critical section. -/
def c1wit : SysState :=
  { tickets := 1, releases := 0, owner := 1,
    pc := Function.update (Function.update (fun _ => CorePC.idle) 1 (CorePC.waiting 0)) 1
      (CorePC.holding 0) }

/-!
Helper lemmas for the concurrent model.
-/

theorem U32_two : 2 ≤ U32_MOD := by norm_num [U32_MOD]

/-- Equal `u32` images plus a gap smaller than the modulus force equality of
the history counters. -/
theorem mod_eq_cancel {n a b : Nat} (hle : b ≤ a) (hlt : a - b < n)
    (h : a % n = b % n) : a = b := by
  have hdvd : n ∣ a - b := (Nat.modEq_iff_dvd' hle).mp h.symm
  have hz : a - b = 0 := Nat.eq_zero_of_dvd_of_lt hdvd hlt
  omega

/-- A core's program counter determines its outstanding ticket uniquely. -/
theorem owns_unique {s : SysState} {c k k' : Nat}
    (h1 : owns s c k) (h2 : owns s c k') : k = k' := by
  rcases h1 with h1 | h1 | h1 <;> rcases h2 with h2 | h2 | h2 <;>
    rw [h1] at h2 <;> simp_all

/-- An owning core is not idle. -/
theorem owns_not_idle {s : SysState} {c k : Nat} (h : owns s c k) :
    s.pc c ≠ CorePC.idle := by
  rcases h with h | h | h <;> rw [h] <;> intro hcontra <;> cases hcontra

/-- The outstanding interval `[releases, tickets)` injects into the valid
core ids other than any given idle valid core, bounding its length by
`2^32 - 2`. -/
theorem outstanding_bound {s : SysState}
    (hsurj : ∀ n, s.releases ≤ n → n < s.tickets → ∃ c, owns s c n)
    (hvalid : ∀ c, s.pc c ≠ CorePC.idle → c < U32_MOD - 1)
    {c0 : Nat} (hc0 : s.pc c0 = CorePC.idle) (hc0valid : c0 < U32_MOD - 1) :
    s.tickets - s.releases ≤ U32_MOD - 2 := by
  classical
  have hpick : ∀ n, ∃ c, (s.releases ≤ n → n < s.tickets → owns s c n) := by
    intro n
    by_cases h : s.releases ≤ n ∧ n < s.tickets
    · obtain ⟨c, hcown⟩ := hsurj n h.1 h.2
      exact ⟨c, fun _ _ => hcown⟩
    · exact ⟨0, fun h1 h2 => absurd ⟨h1, h2⟩ h⟩
  choose pick hpick2 using hpick
  have hmem : ∀ n ∈ Finset.Ico s.releases s.tickets,
      pick n ∈ (Finset.range (U32_MOD - 1)).erase c0 := by
    intro n hn
    rw [Finset.mem_Ico] at hn
    have hown := hpick2 n hn.1 hn.2
    refine Finset.mem_erase.mpr ⟨?_, Finset.mem_range.mpr (hvalid _ (owns_not_idle hown))⟩
    intro hEq
    rw [hEq] at hown
    exact (owns_not_idle hown) hc0
  have hinj : Set.InjOn pick (Finset.Ico s.releases s.tickets) := by
    intro n1 hn1 n2 hn2 hEq
    simp only [Finset.coe_Ico, Set.mem_Ico] at hn1 hn2
    have h1 := hpick2 n1 hn1.1 hn1.2
    have h2 := hpick2 n2 hn2.1 hn2.2
    rw [hEq] at h1
    exact owns_unique h1 h2
  have hcard := Finset.card_le_card_of_injOn pick hmem hinj
  rw [Nat.card_Ico, Finset.card_erase_of_mem (Finset.mem_range.mpr hc0valid),
    Finset.card_range] at hcard
  omega

/-- Every `GoodStep` preserves the protocol invariant. -/
theorem goodStep_inv {s s' : SysState} (h : GoodStep s s') (hinv : ProtocolInv s) :
    ProtocolInv s' := by
  obtain ⟨rel_le, out_bound, ticket_range, ticket_inj, holder_rel, ticket_surj,
    valid_active, tryread_le⟩ := hinv
  cases h with
  | takeTicket c hc hpc heq =>
    subst heq
    have hbound := outstanding_bound ticket_surj valid_active hpc hc
    refine ⟨?_, ?_, ?_, ?_, ?_, ?_, ?_, ?_⟩ <;> dsimp only [owns]
    · omega
    · omega
    · intro c' k hck
      by_cases hcc : c' = c
      · subst hcc
        rw [Function.update_same] at hck
        simp at hck
        omega
      · rw [Function.update_noteq hcc] at hck
        have := ticket_range c' k hck
        omega
    · intro c1 c2 k h1 h2
      by_cases hc1 : c1 = c <;> by_cases hc2 : c2 = c
      · rw [hc1, hc2]
      · subst hc1
        rw [Function.update_same] at h1
        rw [Function.update_noteq hc2] at h2
        simp at h1
        have := ticket_range c2 k h2
        omega
      · subst hc2
        rw [Function.update_noteq hc1] at h1
        rw [Function.update_same] at h2
        simp at h2
        have := ticket_range c1 k h1
        omega
      · rw [Function.update_noteq hc1] at h1
        rw [Function.update_noteq hc2] at h2
        exact ticket_inj c1 c2 k h1 h2
    · intro c' k hck
      by_cases hcc : c' = c
      · subst hcc
        rw [Function.update_same] at hck
        simp at hck
      · rw [Function.update_noteq hcc] at hck
        exact holder_rel c' k hck
    · intro n hn1 hn2
      by_cases hn : n = s.tickets
      · refine ⟨c, Or.inl ?_⟩
        rw [Function.update_same, hn]
      · obtain ⟨c', hc'⟩ := ticket_surj n hn1 (by omega)
        have hne : c' ≠ c := by
          intro hx
          rw [hx] at hc'
          exact (owns_not_idle hc') hpc
        refine ⟨c', ?_⟩
        rw [Function.update_noteq hne]
        exact hc'
    · intro c' hne
      by_cases hcc : c' = c
      · rw [hcc]
        exact hc
      · rw [Function.update_noteq hcc] at hne
        exact valid_active c' hne
    · intro c' r0 hck
      by_cases hcc : c' = c
      · subst hcc
        rw [Function.update_same] at hck
        simp at hck
      · rw [Function.update_noteq hcc] at hck
        exact tryread_le c' r0 hck
  | enterCS c k hpc hrel heq =>
    subst heq
    have hrange := ticket_range c k (Or.inl hpc)
    have hk : k = s.releases := mod_eq_cancel hrange.1 (by omega) hrel.symm
    refine ⟨?_, ?_, ?_, ?_, ?_, ?_, ?_, ?_⟩ <;> dsimp only [owns]
    · omega
    · omega
    · intro c' k' hck
      by_cases hcc : c' = c
      · subst hcc
        rw [Function.update_same] at hck
        simp at hck
        omega
      · rw [Function.update_noteq hcc] at hck
        exact ticket_range c' k' hck
    · intro c1 c2 k' h1 h2
      by_cases hc1 : c1 = c <;> by_cases hc2 : c2 = c
      · rw [hc1, hc2]
      · rw [hc1] at h1 ⊢
        rw [Function.update_same] at h1
        rw [Function.update_noteq hc2] at h2
        simp at h1
        have h2' : owns s c2 k := by rw [h1]; exact h2
        exact (ticket_inj c2 c k h2' (Or.inl hpc)).symm
      · rw [hc2] at h2 ⊢
        rw [Function.update_noteq hc1] at h1
        rw [Function.update_same] at h2
        simp at h2
        have h1' : owns s c1 k := by rw [h2]; exact h1
        exact ticket_inj c1 c k h1' (Or.inl hpc)
      · rw [Function.update_noteq hc1] at h1
        rw [Function.update_noteq hc2] at h2
        exact ticket_inj c1 c2 k' h1 h2
    · intro c' k' hck
      by_cases hcc : c' = c
      · subst hcc
        rw [Function.update_same] at hck
        simp at hck
        omega
      · rw [Function.update_noteq hcc] at hck
        exact holder_rel c' k' hck
    · intro n hn1 hn2
      obtain ⟨c', hc'⟩ := ticket_surj n hn1 hn2
      by_cases hcc : c' = c
      · rw [hcc] at hc'
        have hnk : n = k := owns_unique hc' (Or.inl hpc)
        refine ⟨c, Or.inr (Or.inl ?_)⟩
        rw [Function.update_same, hnk]
      · refine ⟨c', ?_⟩
        rw [Function.update_noteq hcc]
        exact hc'
    · intro c' hne
      by_cases hcc : c' = c
      · rw [hcc]
        exact valid_active c (owns_not_idle (Or.inl hpc))
      · rw [Function.update_noteq hcc] at hne
        exact valid_active c' hne
    · intro c' r0 hck
      by_cases hcc : c' = c
      · subst hcc
        rw [Function.update_same] at hck
        simp at hck
      · rw [Function.update_noteq hcc] at hck
        exact tryread_le c' r0 hck
  | deadlockCheck c k hpc hrel hown heq =>
    subst heq
    refine ⟨?_, ?_, ?_, ?_, ?_, ?_, ?_, ?_⟩ <;> dsimp only [owns]
    · omega
    · omega
    · intro c' k' hck
      by_cases hcc : c' = c
      · rw [hcc] at hck
        rw [Function.update_same] at hck
        simp at hck
        have := ticket_range c k (Or.inl hpc)
        omega
      · rw [Function.update_noteq hcc] at hck
        exact ticket_range c' k' hck
    · intro c1 c2 k' h1 h2
      by_cases hc1 : c1 = c <;> by_cases hc2 : c2 = c
      · rw [hc1, hc2]
      · rw [hc1] at h1 ⊢
        rw [Function.update_same] at h1
        rw [Function.update_noteq hc2] at h2
        simp at h1
        have h2' : owns s c2 k := by rw [h1]; exact h2
        exact (ticket_inj c2 c k h2' (Or.inl hpc)).symm
      · rw [hc2] at h2 ⊢
        rw [Function.update_noteq hc1] at h1
        rw [Function.update_same] at h2
        simp at h2
        have h1' : owns s c1 k := by rw [h2]; exact h1
        exact ticket_inj c1 c k h1' (Or.inl hpc)
      · rw [Function.update_noteq hc1] at h1
        rw [Function.update_noteq hc2] at h2
        exact ticket_inj c1 c2 k' h1 h2
    · intro c' k' hck
      by_cases hcc : c' = c
      · subst hcc
        rw [Function.update_same] at hck
        simp at hck
      · rw [Function.update_noteq hcc] at hck
        exact holder_rel c' k' hck
    · intro n hn1 hn2
      obtain ⟨c', hc'⟩ := ticket_surj n hn1 hn2
      by_cases hcc : c' = c
      · rw [hcc] at hc'
        have hnk : n = k := owns_unique hc' (Or.inl hpc)
        refine ⟨c, Or.inr (Or.inr ?_)⟩
        rw [Function.update_same, hnk]
      · refine ⟨c', ?_⟩
        rw [Function.update_noteq hcc]
        exact hc'
    · intro c' hne
      by_cases hcc : c' = c
      · rw [hcc]
        exact valid_active c (owns_not_idle (Or.inl hpc))
      · rw [Function.update_noteq hcc] at hne
        exact valid_active c' hne
    · intro c' r0 hck
      by_cases hcc : c' = c
      · subst hcc
        rw [Function.update_same] at hck
        simp at hck
      · rw [Function.update_noteq hcc] at hck
        exact tryread_le c' r0 hck
  | releaseLock c k hpc heq =>
    subst heq
    have hk : k = s.releases := holder_rel c k hpc
    have hrange := ticket_range c k (Or.inr (Or.inl hpc))
    have hcown : owns s c s.releases := by
      rw [← hk]
      exact Or.inr (Or.inl hpc)
    have hno_other : ∀ c', owns s c' s.releases → c' = c := by
      intro c' h'
      exact ticket_inj c' c s.releases h' hcown
    refine ⟨?_, ?_, ?_, ?_, ?_, ?_, ?_, ?_⟩ <;> dsimp only [owns]
    · omega
    · omega
    · intro c' k' hck
      by_cases hcc : c' = c
      · subst hcc
        rw [Function.update_same] at hck
        simp at hck
      · rw [Function.update_noteq hcc] at hck
        have hr := ticket_range c' k' hck
        have hne' : k' ≠ s.releases := by
          intro hx
          exact hcc (hno_other c' (by rw [← hx]; exact hck))
        omega
    · intro c1 c2 k' h1 h2
      by_cases hc1 : c1 = c
      · subst hc1
        rw [Function.update_same] at h1
        simp at h1
      · by_cases hc2 : c2 = c
        · subst hc2
          rw [Function.update_same] at h2
          simp at h2
        · rw [Function.update_noteq hc1] at h1
          rw [Function.update_noteq hc2] at h2
          exact ticket_inj c1 c2 k' h1 h2
    · intro c' k' hck
      by_cases hcc : c' = c
      · subst hcc
        rw [Function.update_same] at hck
        simp at hck
      · rw [Function.update_noteq hcc] at hck
        have hk' : k' = s.releases := holder_rel c' k' hck
        have : c' = c := hno_other c' (by rw [← hk']; exact Or.inr (Or.inl hck))
        exact absurd this hcc
    · intro n hn1 hn2
      obtain ⟨c', hc'⟩ := ticket_surj n (by omega) hn2
      have hcc : c' ≠ c := by
        intro hx
        subst hx
        have : n = k := owns_unique hc' (Or.inr (Or.inl hpc))
        omega
      refine ⟨c', ?_⟩
      rw [Function.update_noteq hcc]
      exact hc'
    · intro c' hne
      by_cases hcc : c' = c
      · subst hcc
        rw [Function.update_same] at hne
        exact absurd rfl hne
      · rw [Function.update_noteq hcc] at hne
        exact valid_active c' hne
    · intro c' r0 hck
      by_cases hcc : c' = c
      · subst hcc
        rw [Function.update_same] at hck
        simp at hck
      · rw [Function.update_noteq hcc] at hck
        have := tryread_le c' r0 hck
        omega
  | tryReadRelease c hc hpc heq =>
    subst heq
    refine ⟨?_, ?_, ?_, ?_, ?_, ?_, ?_, ?_⟩ <;> dsimp only [owns]
    · omega
    · omega
    · intro c' k' hck
      by_cases hcc : c' = c
      · subst hcc
        rw [Function.update_same] at hck
        simp at hck
      · rw [Function.update_noteq hcc] at hck
        exact ticket_range c' k' hck
    · intro c1 c2 k' h1 h2
      by_cases hc1 : c1 = c
      · subst hc1
        rw [Function.update_same] at h1
        simp at h1
      · by_cases hc2 : c2 = c
        · subst hc2
          rw [Function.update_same] at h2
          simp at h2
        · rw [Function.update_noteq hc1] at h1
          rw [Function.update_noteq hc2] at h2
          exact ticket_inj c1 c2 k' h1 h2
    · intro c' k' hck
      by_cases hcc : c' = c
      · subst hcc
        rw [Function.update_same] at hck
        simp at hck
      · rw [Function.update_noteq hcc] at hck
        exact holder_rel c' k' hck
    · intro n hn1 hn2
      obtain ⟨c', hc'⟩ := ticket_surj n hn1 hn2
      have hcc : c' ≠ c := by
        intro hx
        rw [hx] at hc'
        exact (owns_not_idle hc') hpc
      refine ⟨c', ?_⟩
      rw [Function.update_noteq hcc]
      exact hc'
    · intro c' hne
      by_cases hcc : c' = c
      · rw [hcc]
        exact hc
      · rw [Function.update_noteq hcc] at hne
        exact valid_active c' hne
    · intro c' r0 hck
      by_cases hcc : c' = c
      · subst hcc
        rw [Function.update_same] at hck
        simp at hck
        omega
      · rw [Function.update_noteq hcc] at hck
        exact tryread_le c' r0 hck
  | tryCasFail c r0 hpc hne heq =>
    subst heq
    refine ⟨?_, ?_, ?_, ?_, ?_, ?_, ?_, ?_⟩ <;> dsimp only [owns]
    · omega
    · omega
    · intro c' k' hck
      by_cases hcc : c' = c
      · subst hcc
        rw [Function.update_same] at hck
        simp at hck
      · rw [Function.update_noteq hcc] at hck
        exact ticket_range c' k' hck
    · intro c1 c2 k' h1 h2
      by_cases hc1 : c1 = c
      · subst hc1
        rw [Function.update_same] at h1
        simp at h1
      · by_cases hc2 : c2 = c
        · subst hc2
          rw [Function.update_same] at h2
          simp at h2
        · rw [Function.update_noteq hc1] at h1
          rw [Function.update_noteq hc2] at h2
          exact ticket_inj c1 c2 k' h1 h2
    · intro c' k' hck
      by_cases hcc : c' = c
      · subst hcc
        rw [Function.update_same] at hck
        simp at hck
      · rw [Function.update_noteq hcc] at hck
        exact holder_rel c' k' hck
    · intro n hn1 hn2
      obtain ⟨c', hc'⟩ := ticket_surj n hn1 hn2
      have hcc : c' ≠ c := by
        intro hx
        subst hx
        rcases hc' with h' | h' | h' <;> rw [hpc] at h' <;> simp at h'
      refine ⟨c', ?_⟩
      rw [Function.update_noteq hcc]
      exact hc'
    · intro c' hne'
      by_cases hcc : c' = c
      · subst hcc
        rw [Function.update_same] at hne'
        exact absurd rfl hne'
      · rw [Function.update_noteq hcc] at hne'
        exact valid_active c' hne'
    · intro c' r1 hck
      by_cases hcc : c' = c
      · subst hcc
        rw [Function.update_same] at hck
        simp at hck
      · rw [Function.update_noteq hcc] at hck
        exact tryread_le c' r1 hck
  | tryCasWin c r0 hpc hmod hgap heq =>
    subst heq
    have hr0 := tryread_le c r0 hpc
    have htr : s.tickets = r0 := mod_eq_cancel (le_trans hr0 rel_le) hgap hmod
    have hfree : s.releases = s.tickets := by omega
    have hnoowner : ∀ c' k', ¬ owns s c' k' := by
      intro c' k' h'
      have := ticket_range c' k' h'
      omega
    have h2N := U32_two
    refine ⟨?_, ?_, ?_, ?_, ?_, ?_, ?_, ?_⟩ <;> dsimp only [owns]
    · omega
    · omega
    · intro c' k' hck
      by_cases hcc : c' = c
      · subst hcc
        rw [Function.update_same] at hck
        simp at hck
        omega
      · rw [Function.update_noteq hcc] at hck
        exact absurd hck (hnoowner c' k')
    · intro c1 c2 k' h1 h2
      by_cases hc1 : c1 = c
      · by_cases hc2 : c2 = c
        · rw [hc1, hc2]
        · rw [Function.update_noteq hc2] at h2
          exact absurd h2 (hnoowner c2 k')
      · rw [Function.update_noteq hc1] at h1
        exact absurd h1 (hnoowner c1 k')
    · intro c' k' hck
      by_cases hcc : c' = c
      · subst hcc
        rw [Function.update_same] at hck
        simp at hck
        omega
      · rw [Function.update_noteq hcc] at hck
        exact absurd (Or.inr (Or.inl hck)) (hnoowner c' k')
    · intro n hn1 hn2
      have hn : n = s.tickets := by omega
      refine ⟨c, Or.inr (Or.inl ?_)⟩
      rw [Function.update_same, hn]
    · intro c' hne'
      by_cases hcc : c' = c
      · rw [hcc]
        refine valid_active c ?_
        rw [hpc]
        simp
      · rw [Function.update_noteq hcc] at hne'
        exact valid_active c' hne'
    · intro c' r1 hck
      by_cases hcc : c' = c
      · subst hcc
        rw [Function.update_same] at hck
        simp at hck
      · rw [Function.update_noteq hcc] at hck
        exact tryread_le c' r1 hck

/-- The protocol invariant holds in the initial state. -/
theorem protocolInv_init : ProtocolInv initSys := by
  have h2N := U32_two
  refine ⟨?_, ?_, ?_, ?_, ?_, ?_, ?_, ?_⟩ <;> dsimp only [initSys, owns]
  · exact Nat.le_refl 0
  · omega
  · intro c k hck
    rcases hck with h | h | h <;> simp at h
  · intro c1 c2 k h1 h2
    rcases h1 with h | h | h <;> simp at h
  · intro c k h
    simp at h
  · intro n h1 h2
    omega
  · intro c h
    simp at h
  · intro c r0 h
    simp at h

/-- The protocol invariant holds in every `GoodReachable` state. -/
theorem goodReachable_inv {s : SysState} (h : GoodReachable s) : ProtocolInv s := by
  induction h with
  | init => exact protocolInv_init
  | step _ hs ih => exact goodStep_inv hs ih

/-- The witness state is reachable (two `GoodStep`s from the fresh cell). -/
theorem c1wit_reachable : GoodReachable c1wit := by
  have h1 : GoodReachable
      { tickets := 1, releases := 0, owner := 0,
        pc := Function.update (fun _ => CorePC.idle) 1 (CorePC.waiting 0) } := by
    refine GoodReachable.step GoodReachable.init ?_
    refine GoodStep.takeTicket initSys _ 1 (by norm_num [U32_MOD]) rfl ?_
    simp [initSys]
  refine GoodReachable.step h1 ?_
  refine GoodStep.enterCS _ c1wit 1 0 ?_ rfl ?_
  · simp [Function.update]
  · simp [c1wit]

/-- C1 (amended): in any execution of the protocol in which every successful
try-acquire `compare_and_swap` happens before the ticket counter has advanced
`2^32` or more past the `release` value that try-acquire loaded (no full
`u32` wraparound inside the read-to-swap window — `GoodStep`), at most one
live guard exists at any instant: any two cores whose `lock_int` (blocking
or try) has returned a not-yet-dropped guard are the same core. -/
theorem c1_mutual_exclusion {s : SysState} (hs : GoodReachable s)
    {c1 c2 k1 k2 : Nat} (h1 : s.pc c1 = CorePC.holding k1)
    (h2 : s.pc c2 = CorePC.holding k2) : c1 = c2 := by
  have hinv := goodReachable_inv hs
  have e1 : k1 = s.releases := hinv.holder_rel c1 k1 h1
  have e2 : k2 = s.releases := hinv.holder_rel c2 k2 h2
  refine hinv.ticket_inj c1 c2 s.releases ?_ ?_
  · rw [← e1]
    exact Or.inr (Or.inl h1)
  · rw [← e2]
    exact Or.inr (Or.inl h2)

/-- Witness: the mutual-exclusion theorem applied at the concrete reachable
state in which core 1 holds the guard for ticket 0. -/
theorem c1_mutual_exclusion_witness :
    c1wit.pc 1 = CorePC.holding 0 ∧ (1 : Nat) = 1 := by
  have hpc : c1wit.pc 1 = CorePC.holding 0 := by
    simp [c1wit, Function.update]
  exact ⟨hpc, c1_mutual_exclusion c1wit_reachable hpc hpc⟩

/-- Every state `cycleState (j + 1)` of the ABA execution is reachable:
core 2 loads `release` after core 1's first complete cycle, then core 1
keeps cycling. -/
theorem cycleState_reachable (j : Nat) : Reachable (cycleState (j + 1)) := by
  induction j with
  | zero =>
    have h1 : Reachable abaA1 := by
      refine Reachable.step Reachable.init ?_
      refine Step.takeTicket initSys _ 1 (by norm_num [U32_MOD]) rfl ?_
      unfold abaA1 initSys
      simp only [SysState.mk.injEq]
      refine ⟨?_, ?_, ?_, ?_⟩ <;> try trivial
      funext c
      by_cases h : c = 1 <;> simp [Function.update, h]
    have h2 : Reachable abaA2 := by
      refine Reachable.step h1 ?_
      refine Step.enterCS abaA1 _ 1 0 rfl rfl ?_
      unfold abaA2 abaA1
      simp only [SysState.mk.injEq]
      refine ⟨?_, ?_, ?_, ?_⟩ <;> try trivial
      funext c
      by_cases h : c = 1 <;> simp [Function.update, h]
    have h3 : Reachable abaA3 := by
      refine Reachable.step h2 ?_
      refine Step.releaseLock abaA2 _ 1 0 rfl ?_
      unfold abaA3 abaA2
      simp only [SysState.mk.injEq]
      refine ⟨?_, ?_, ?_, ?_⟩ <;> try trivial
      funext c
      by_cases h : c = 1 <;> simp [Function.update, h]
    refine Reachable.step h3 ?_
    refine Step.tryReadRelease abaA3 _ 2 (by norm_num [U32_MOD]) rfl ?_
    unfold cycleState abaA3
    simp only [SysState.mk.injEq]
    refine ⟨?_, ?_, ?_, ?_⟩ <;> try trivial
    funext c
    by_cases h : c = 2 <;> simp [Function.update, h]
  | succ j ih =>
    have h1 : Reachable (cyc1 (j + 1)) := by
      refine Reachable.step ih ?_
      refine Step.takeTicket (cycleState (j + 1)) _ 1 (by norm_num [U32_MOD]) rfl ?_
      unfold cyc1 cycleState
      simp only [SysState.mk.injEq]
      refine ⟨?_, ?_, ?_, ?_⟩ <;> try trivial
      funext c
      by_cases h1 : c = 1
      · subst h1
        simp [Function.update]
      · by_cases h2 : c = 2 <;> simp [Function.update, h1, h2]
    have h2 : Reachable (cyc2 (j + 1)) := by
      refine Reachable.step h1 ?_
      refine Step.enterCS (cyc1 (j + 1)) _ 1 (j + 1) rfl rfl ?_
      unfold cyc2 cyc1
      simp only [SysState.mk.injEq]
      refine ⟨?_, ?_, ?_, ?_⟩ <;> try trivial
      funext c
      by_cases h1 : c = 1
      · subst h1
        simp [Function.update]
      · by_cases h2 : c = 2 <;> simp [Function.update, h1, h2]
    refine Reachable.step h2 ?_
    refine Step.releaseLock (cyc2 (j + 1)) _ 1 (j + 1) rfl ?_
    unfold cycleState cyc2
    simp only [SysState.mk.injEq]
    refine ⟨?_, ?_, ?_, ?_⟩ <;> try trivial
    funext c
    by_cases h1 : c = 1
    · subst h1
      simp [Function.update]
    · by_cases h2 : c = 2 <;> simp [Function.update, h1, h2]

/-- The two-holder state is reachable: after core 2's try-acquire loaded
`release = 1`, core 1 cycles the lock until the `u32` ticket counter wraps
back to 1, re-acquires (ticket `2^32`), and then core 2's
`compare_and_swap` succeeds although the lock is held. -/
theorem cexFinal_reachable : Reachable cexFinal := by
  have h0 := cycleState_reachable (U32_MOD - 1)
  have hN : U32_MOD - 1 + 1 = U32_MOD := by norm_num [U32_MOD]
  rw [hN] at h0
  have h1 : Reachable (cyc1 U32_MOD) := by
    refine Reachable.step h0 ?_
    refine Step.takeTicket (cycleState U32_MOD) _ 1 (by norm_num [U32_MOD]) rfl ?_
    unfold cyc1 cycleState
    simp only [SysState.mk.injEq]
    refine ⟨?_, ?_, ?_, ?_⟩ <;> try trivial
    funext c
    by_cases h1 : c = 1
    · subst h1
      simp [Function.update]
    · by_cases h2 : c = 2 <;> simp [Function.update, h1, h2]
  have h2 : Reachable (cyc2 U32_MOD) := by
    refine Reachable.step h1 ?_
    refine Step.enterCS (cyc1 U32_MOD) _ 1 U32_MOD rfl rfl ?_
    unfold cyc2 cyc1
    simp only [SysState.mk.injEq]
    refine ⟨?_, ?_, ?_, ?_⟩ <;> try trivial
    funext c
    by_cases h1 : c = 1
    · subst h1
      simp [Function.update]
    · by_cases h2 : c = 2 <;> simp [Function.update, h1, h2]
  refine Reachable.step h2 ?_
  refine Step.tryCasWin (cyc2 U32_MOD) _ 2 1 rfl ?_ ?_
  · exact Nat.add_mod_left U32_MOD 1
  · unfold cexFinal cyc2
    simp only [SysState.mk.injEq]
    refine ⟨?_, ?_, ?_, ?_⟩ <;> try trivial
    funext c
    by_cases h2 : c = 2
    · subst h2
      simp [Function.update]
    · by_cases h1 : c = 1 <;> simp [Function.update, h1, h2]

/-- C1 counterexample: the claim as stated is false for the code.  The state
`cexFinal` is reachable by the protocol itself (`Reachable`, no environment
restriction), yet two distinct cores, 1 and 2, simultaneously hold live
guards: core 1's blocking acquire returned a guard for ticket `2^32` and
core 2's try-acquire returned a guard for ticket `2^32 + 1`, and neither
guard has been dropped.  The execution is the classical ABA: core 2's
`compare_and_swap` of `ticket` ran after exactly `2^32` intervening ticket
increments, so the `u32` `ticket` field had wrapped back to the loaded
`release` value although the lock was held. -/
theorem c1_counterexample :
    Reachable cexFinal ∧ cexFinal.pc 1 = CorePC.holding U32_MOD ∧
      cexFinal.pc 2 = CorePC.holding (U32_MOD + 1) ∧ (1 : Nat) ≠ 2 :=
  ⟨cexFinal_reachable, rfl, rfl, by norm_num⟩

/-- C2: the claim fails on the code at the very first state.  `new` and
`new_no_preempt` initialize `owner` to `0` — a legal core id, since only `!0`
is reserved — while `ticket = release = 0` (lock free), so a free lock's
`owner` is not the "none" sentinel; the sentinel the code itself uses on
release (`Drop::drop` stores `!0`) is different.  -/
theorem c2_new_owner_not_sentinel :
    (LockCell.new (0 : Nat)).ticket = (LockCell.new (0 : Nat)).release ∧
    (LockCell.new (0 : Nat)).owner ≠ NONE_OWNER ∧
    (LockCell.new_no_preempt (0 : Nat)).ticket = (LockCell.new_no_preempt (0 : Nat)).release ∧
    (LockCell.new_no_preempt (0 : Nat)).owner ≠ NONE_OWNER ∧
    (LockCellGuard.drop (⟨1, 0, 3, false, 0⟩ : CellState Nat)).1.owner = NONE_OWNER := by
  decide

/-- C3: a blocking acquire whose caller's core id equals the current `owner`
while the fetched ticket is not yet released (`release ≠ ticket`) panics with
"Deadlock detected" (after the `ticket.fetch_add(1)` and, for an
interrupt-disabling cell, the `enter_lock()` call), rather than returning a
guard or spinning forever. -/
theorem c3_deadlock_panic {T : Type} (I : IState) (s : CellState T)
    (hassert : (s.disables_interrupts || !I.inInterrupt) = true)
    (hexc : I.inException = false)
    (hown : s.owner = I.coreId)
    (hrel : s.release ≠ s.ticket) :
    lock_int I s false =
      (LockOutcome.deadlockPanic { s with ticket := wrappingAdd1 s.ticket },
       if s.disables_interrupts then [LockEvent.enterLock] else []) := by
  simp [lock_int, hassert, hexc, hown, hrel]

/-- Witness for C3 at a concrete state: core 7 re-acquiring the contended
cell it owns panics. -/
theorem c3_deadlock_panic_witness :
    lock_int (⟨false, false, 7⟩ : IState) (⟨1, 0, 7, false, (0 : Nat)⟩ : CellState Nat) false =
      (LockOutcome.deadlockPanic ⟨2, 0, 7, false, 0⟩, []) :=
  c3_deadlock_panic ⟨false, false, 7⟩ ⟨1, 0, 7, false, 0⟩ (by decide) rfl rfl (by decide)

/-- C4: any acquisition (blocking or try) on a cell with
`disables_interrupts = false` while `in_interrupt()` is true fails the first
assertion immediately: no guard, no event, no change to the cell state (the
outcome carries the state unmodified). -/
theorem c4_interrupt_assert {T : Type} (I : IState) (s : CellState T) (b : Bool)
    (hint : I.inInterrupt = true) (hdi : s.disables_interrupts = false) :
    lock_int I s b = (LockOutcome.assertNoPreemptFail s, []) := by
  simp [lock_int, hint, hdi]

/-- Witness for C4 at a concrete state, for both the blocking and the try
flavor. -/
theorem c4_interrupt_assert_witness :
    lock_int (⟨true, false, 3⟩ : IState) (⟨0, 0, 0, false, (0 : Nat)⟩ : CellState Nat) false =
      (LockOutcome.assertNoPreemptFail ⟨0, 0, 0, false, 0⟩, []) ∧
    lock_int (⟨true, false, 3⟩ : IState) (⟨0, 0, 0, false, (0 : Nat)⟩ : CellState Nat) true =
      (LockOutcome.assertNoPreemptFail ⟨0, 0, 0, false, 0⟩, []) :=
  ⟨c4_interrupt_assert ⟨true, false, 3⟩ ⟨0, 0, 0, false, 0⟩ false rfl rfl,
   c4_interrupt_assert ⟨true, false, 3⟩ ⟨0, 0, 0, false, 0⟩ true rfl rfl⟩

/-- C5: a blocking acquire while `in_exception()` is true fails the second
assertion (provided the first passes), while a try-acquire can never produce
that assertion failure, whatever the context. -/
theorem c5_exception_assert {T : Type} (I : IState) (s : CellState T) :
    (I.inException = true → (s.disables_interrupts || !I.inInterrupt) = true →
      lock_int I s false = (LockOutcome.assertExceptionFail s, [])) ∧
    (∀ s' : CellState T, (lock_int I s true).1 ≠ LockOutcome.assertExceptionFail s') := by
  constructor
  · intro hexc hassert
    simp [lock_int, hassert, hexc]
  · intro s'
    by_cases h1 : s.disables_interrupts || !I.inInterrupt
    · by_cases h2 : s.ticket = s.release
      · simp [lock_int, h1, h2]
      · simp [lock_int, h1, h2]
    · rw [Bool.not_eq_true] at h1
      simp [lock_int, h1]

/-- Witness for C5: blocking acquire in an exception context aborts on the
exception assertion; the try-acquire in the same state does not produce that
abort. -/
theorem c5_exception_assert_witness :
    lock_int (⟨false, true, 4⟩ : IState) (⟨0, 0, 0, false, (0 : Nat)⟩ : CellState Nat) false =
      (LockOutcome.assertExceptionFail ⟨0, 0, 0, false, 0⟩, []) ∧
    (lock_int (⟨false, true, 4⟩ : IState) (⟨0, 0, 0, false, (0 : Nat)⟩ : CellState Nat) true).1 ≠
      LockOutcome.assertExceptionFail ⟨0, 0, 0, false, 0⟩ :=
  ⟨(c5_exception_assert ⟨false, true, 4⟩ ⟨0, 0, 0, false, 0⟩).1 rfl (by decide),
   (c5_exception_assert ⟨false, true, 4⟩ ⟨0, 0, 0, false, 0⟩).2 ⟨0, 0, 0, false, 0⟩⟩

/-- C6: a failed try-acquire (the `compare_and_swap` of `ticket` from the
loaded `release` does not succeed, i.e. `ticket ≠ release`) returns `None`,
leaves `ticket`, `release`, `owner` and the payload unchanged (the returned
state is `s` itself), and for an interrupt-disabling cell performs exactly
one `enter_lock()` undone by exactly one `exit_lock()`. -/
theorem c6_try_fail {T : Type} (I : IState) (s : CellState T)
    (hassert : (s.disables_interrupts || !I.inInterrupt) = true)
    (hne : s.ticket ≠ s.release) :
    lock_int I s true = (LockOutcome.ret none s,
      if s.disables_interrupts then [LockEvent.enterLock, LockEvent.exitLock] else []) := by
  by_cases hdi : s.disables_interrupts = true
  · simp [lock_int, hassert, hne, hdi]
  · have hdi' : s.disables_interrupts = false := by
      revert hdi
      cases s.disables_interrupts <;> simp
    have hni : I.inInterrupt = false := by
      rw [hdi'] at hassert
      simpa using hassert
    simp [lock_int, hne, hdi', hni]

/-- Witness for C6 on an interrupt-disabling contended cell: `None`, state
unchanged, and the `enter_lock()`/`exit_lock()` pair. -/
theorem c6_try_fail_witness :
    lock_int (⟨true, true, 4⟩ : IState) (⟨5, 3, 9, true, (0 : Nat)⟩ : CellState Nat) true =
      (LockOutcome.ret none ⟨5, 3, 9, true, 0⟩, [LockEvent.enterLock, LockEvent.exitLock]) :=
  c6_try_fail ⟨true, true, 4⟩ ⟨5, 3, 9, true, 0⟩ (by decide) (by decide)

/-- C7: a try-acquire (whose interrupt assertion passes) succeeds exactly
when `ticket` equals the loaded `release`; on success the single
`compare_and_swap` moves `ticket` to `release.wrapping_add(1)`, `owner` is
set to the caller's core id, and a guard is returned bound to the cell. -/
theorem c7_try_acquire {T : Type} (I : IState) (s : CellState T)
    (hassert : (s.disables_interrupts || !I.inInterrupt) = true) :
    ((lock_int I s true).1 =
        LockOutcome.ret (some ()) { s with ticket := wrappingAdd1 s.release, owner := I.coreId }
      ↔ s.ticket = s.release) ∧
    (s.ticket = s.release →
      lock_int I s true =
        (LockOutcome.ret (some ()) { s with ticket := wrappingAdd1 s.release, owner := I.coreId },
         if s.disables_interrupts then [LockEvent.enterLock] else [])) := by
  constructor
  · constructor
    · intro h
      by_cases h2 : s.ticket = s.release
      · exact h2
      · simp [lock_int, hassert, h2] at h
    · intro h2
      simp [lock_int, hassert, h2]
  · intro h2
    simp [lock_int, hassert, h2]

/-- Witness for C7: try-acquire on a free cell (`ticket = release = 4`)
succeeds, advances `ticket` to 5 and records core 2 as owner. -/
theorem c7_try_acquire_witness :
    lock_int (⟨false, true, 2⟩ : IState) (⟨4, 4, 0, false, (7 : Nat)⟩ : CellState Nat) true =
      (LockOutcome.ret (some ()) ⟨5, 4, 2, false, 7⟩, []) :=
  (c7_try_acquire ⟨false, true, 2⟩ ⟨4, 4, 0, false, 7⟩ (by decide)).2 rfl

/-- C8: guard destruction executes exactly the statements of `Drop::drop` in
order: store the `!0` sentinel into `owner`, then wrapping-increment
`release`, and, only for an interrupt-disabling cell, call `exit_lock()`
last, after both bookkeeping updates; `ticket` and the payload are
unchanged. -/
theorem c8_guard_drop {T : Type} (s : CellState T) :
    (LockCellGuard.drop s).1.owner = NONE_OWNER ∧
    (LockCellGuard.drop s).1.release = wrappingAdd1 s.release ∧
    (LockCellGuard.drop s).1.ticket = s.ticket ∧
    (LockCellGuard.drop s).1.val = s.val ∧
    (LockCellGuard.drop s).2 =
      [DropEvent.setOwner NONE_OWNER, DropEvent.incRelease] ++
        (if s.disables_interrupts then [DropEvent.exitLockCall] else []) := by
  by_cases hdi : s.disables_interrupts <;>
    simp [LockCellGuard.drop, dropProgram, dropEffect, hdi]

/-- C9: every counter update in acquisition and release is wraparound
(modulo `2^32`) arithmetic; in particular at the maximal `u32` value the
successor used is `0`, and both the blocking grant test and the try-acquire
`compare_and_swap` still succeed by equality on a free cell whose counters
sit at the maximum, moving `ticket` to `0`; the release increment wraps the
same way. -/
theorem c9_wraparound {T : Type} (I : IState) (s : CellState T) :
    wrappingAdd1 (U32_MOD - 1) = 0 ∧
    (∀ v, wrappingAdd1 v = (v + 1) % U32_MOD) ∧
    (s.ticket = U32_MOD - 1 → s.release = U32_MOD - 1 →
      (s.disables_interrupts || !I.inInterrupt) = true → I.inException = false →
      (lock_int I s false).1 =
          LockOutcome.ret (some ()) { s with ticket := 0, owner := I.coreId } ∧
      (lock_int I s true).1 =
          LockOutcome.ret (some ()) { s with ticket := 0, owner := I.coreId }) ∧
    (LockCellGuard.drop s).1.release = wrappingAdd1 s.release := by
  refine ⟨by norm_num [wrappingAdd1, U32_MOD], fun v => rfl, ?_, ?_⟩
  · intro ht hr hassert hexc
    constructor
    · simp [lock_int, hassert, hexc, ht, hr, wrappingAdd1, U32_MOD]
    · simp [lock_int, hassert, ht, hr, wrappingAdd1, U32_MOD]
  · by_cases hdi : s.disables_interrupts <;>
      simp [LockCellGuard.drop, dropProgram, dropEffect, hdi]

/-- Witness for C9 at the maximal counter value `2^32 - 1`. -/
theorem c9_wraparound_witness :
    wrappingAdd1 (U32_MOD - 1) = 0 ∧
    (lock_int (⟨false, false, 6⟩ : IState)
        (⟨U32_MOD - 1, U32_MOD - 1, 0, false, (0 : Nat)⟩ : CellState Nat) false).1 =
      LockOutcome.ret (some ()) ⟨0, U32_MOD - 1, 6, false, 0⟩ := by
  have h := c9_wraparound (⟨false, false, 6⟩ : IState)
    (⟨U32_MOD - 1, U32_MOD - 1, 0, false, (0 : Nat)⟩ : CellState Nat)
  exact ⟨h.1, (h.2.2.1 rfl rfl (by decide) rfl).1⟩

/-- C10: the blocking path of `lock_int` can never return `None`: whatever
the environment and cell state, stopping outcomes aside, it returns a guard.
Consequently `lock()`'s `unwrap` never panics on a `None`. -/
theorem c10_blocking_never_none {T : Type} (I : IState) (s : CellState T) :
    isRetNone (lock_int I s false).1 = false ∧
    isUnwrapPanicked (LockCell.lock I s) = false := by
  have h1 : isRetNone (lock_int I s false).1 = false := by
    unfold lock_int
    dsimp only
    repeat' split <;> simp [isRetNone]
    rename_i o s2 heq
    repeat' split at heq
    all_goals simp_all
  refine ⟨h1, ?_⟩
  unfold LockCell.lock
  rcases hret : (lock_int I s false).1 with s1 | s1 | s1 | s1 | ⟨g, s1⟩
  · simp [isUnwrapPanicked]
  · simp [isUnwrapPanicked]
  · simp [isUnwrapPanicked]
  · simp [isUnwrapPanicked]
  · cases g
    · rw [hret] at h1
      simp [isRetNone] at h1
    · simp [isUnwrapPanicked]
